import Mathlib

/-!
Verification of the multi-protocol crawl orchestrator in `scrape.py`
(products over paginated HTML, reviews over GraphQL cursor pagination,
testimonials over HTMX fragment chaining, plus the `main` orchestrator).

The Python source is shallowly embedded: every HTML document / JSON
response is modelled at exactly the level the source reads it (the
CSS-selector and dict-access results), HTTP traffic is modelled by a
pure oracle `url -> status x document` (respectively `query index ->
response` for GraphQL), and each crawler returns its request log
together with either its records or the exception it raised.
-/

set_option autoImplicit false

namespace Scrape

/-- The fixed site base, `BASE_URL` in the source. -/
def BASE_URL : String := "https://web-scraping.dev"

/-- Python regex `\s` on the ASCII range (the characters the site's
markup can contain); models `re` whitespace in `scrape.py`'s page-count
regex and `str.strip` inside `float()`. -/
def isPySpace (c : Char) : Bool :=
  c == ' ' || c == '\t' || c == '\n' || c == '\r' || c == '\x0b' || c == '\x0c'

/-- Numeric value of a run of ASCII digits, as `int()` reads `\d+`. -/
def digitsVal (ds : List Char) : Nat :=
  ds.foldl (fun n c => n * 10 + (c.toNat - 48)) 0

/-- Models CPython `float(s)` (as used on the price text, with the
`try/except` mapping `ValueError` to `None`) on the plain numeric
literal grammar `[+-]? (digits [. digits*] | . digits) ([eE][+-]?digits)?`
with surrounding whitespace stripped.  Values are kept as exact
rationals; `inf`/`nan` and digit underscores are not modelled (the
site's price strings never use them).  Returns `none` exactly when the
string fails to parse. -/
def pyFloat (s : String) : Option Rat :=
  let cs0 := ((s.toList.dropWhile isPySpace).reverse.dropWhile isPySpace).reverse
  let signAndRest : Rat × List Char :=
    match cs0 with
    | '-' :: r => (-1, r)
    | '+' :: r => (1, r)
    | r => (1, r)
  let sign := signAndRest.1
  let ipSplit := signAndRest.2.span Char.isDigit
  let ip := ipSplit.1
  let dotSplit : Bool × List Char :=
    match ipSplit.2 with
    | '.' :: r => (true, r)
    | r => (false, r)
  let fpSplit := if dotSplit.1 then dotSplit.2.span Char.isDigit else ([], dotSplit.2)
  let fp := fpSplit.1
  if ip.isEmpty && fp.isEmpty then none
  else
    let mant : Rat := (digitsVal ip : Rat) + (digitsVal fp : Rat) / ((10 : Rat) ^ fp.length)
    match fpSplit.2 with
    | [] => some (sign * mant)
    | e :: r =>
      if e == 'e' || e == 'E' then
        let esignAndRest : Int × List Char :=
          match r with
          | '-' :: rr => (-1, rr)
          | '+' :: rr => (1, rr)
          | rr => (1, rr)
        let edsSplit := esignAndRest.2.span Char.isDigit
        if edsSplit.1.isEmpty || !edsSplit.2.isEmpty then none
        else some (sign * mant * (10 : Rat) ^ (esignAndRest.1 * (digitsVal edsSplit.1 : Int)))
      else none

/-- `String.startsWith`, stated on the character lists so that it
evaluates inside the kernel. -/
def strStartsWith (s pre : String) : Bool :=
  pre.toList.isPrefixOf s.toList

/-- Models `urllib.parse.urljoin` against the fixed base
`"https://web-scraping.dev"` (scheme+host, empty path) on the reference
shapes the site emits: absolute `http(s)` URLs are kept, scheme-relative
references take the base scheme, and root-relative, query-only or bare
relative references are resolved against the empty base path. -/
def urljoin (base url : String) : String :=
  if strStartsWith url "http://" || strStartsWith url "https://" then url
  else if strStartsWith url "//" then "https:" ++ url
  else if strStartsWith url "/" then base ++ url
  else if strStartsWith url "?" then base ++ url
  else base ++ "/" ++ url

/-! ## The page-count regex

`find_total_pages_products` runs `re.search(r"in\s+(\d+)\s+pages", text,
re.IGNORECASE)`.  Since `\d`, `\s` and the literal letters are pairwise
disjoint character classes, the greedy quantifiers never backtrack, so
the search is equivalent to the leftmost first-match scan below. -/

/-- Case-insensitive literal match: does `cs` start with the (lowercase)
word `w`? -/
def matchCI : List Char → List Char → Bool
  | [], _ => true
  | _ :: _, [] => false
  | a :: ws, c :: cs => c.toLower == a && matchCI ws cs

/-- Try to match `in\s+(\d+)\s+pages` (case-insensitive) at the head of
`cs`; on success return the captured number. -/
def matchInPagesAt (cs : List Char) : Option Nat :=
  match cs with
  | c1 :: c2 :: rest =>
    if c1.toLower == 'i' && c2.toLower == 'n' then
      let ws1 := rest.span isPySpace
      if ws1.1.isEmpty then none
      else
        let ds := ws1.2.span Char.isDigit
        if ds.1.isEmpty then none
        else
          let ws2 := ds.2.span isPySpace
          if ws2.1.isEmpty then none
          else if matchCI ['p', 'a', 'g', 'e', 's'] ws2.2 then some (digitsVal ds.1)
          else none
    else none
  | _ => none

/-- Leftmost search for the pattern, as `re.search` does. -/
def searchInPages : List Char → Option Nat
  | [] => none
  | c :: rest =>
    match matchInPagesAt (c :: rest) with
    | some n => some n
    | none => searchInPages rest

/-- Models Python's `x or 1` on an `Optional[int]`: both `None` and `0`
are falsy, so they yield the default `1`. -/
def pyOrOne : Option Nat → Nat
  | none => 1
  | some n => if n = 0 then 1 else n

/-! ## Products (HTML + pagination)

A product listing page is modelled at the level
`parse_products_from_page` and `find_total_pages_products` read it: the
list of `div.row.product` rows (each with the four sub-nodes the parser
queries) and the optional `div.paging-meta` text. -/

/-- The `h3 a` element of a product row: its stripped text and its
optional `href` attribute. -/
structure NameEl where
  text : String
  href : Option String
deriving DecidableEq, Repr

/-- One `div.row.product` row, at the level the parser queries it.
`imgSrc`: outer `Option` = presence of `div.thumbnail img`, inner =
presence of its `src` attribute. -/
structure ProductRow where
  nameEl : Option NameEl
  priceText : Option String
  descText : Option String
  imgSrc : Option (Option String)
deriving DecidableEq, Repr

/-- A product listing document: its rows and the optional
`div.paging-meta` text. -/
structure ProductsPage where
  rows : List ProductRow
  pagingMeta : Option String
deriving DecidableEq, Repr

/-- A product record; the dict built in `parse_products_from_page`
(every key always present by construction). -/
structure Product where
  name : String
  url : String
  price : Option Rat
  short_description : String
  image : String
deriving DecidableEq, Repr

/-- The body of the row loop in `parse_products_from_page`
(`scrape.py` lines 70-96). -/
def parseProductRow (row : ProductRow) : Product :=
  let name := match row.nameEl with
    | some n => n.text
    | none => ""
  let url0 := match row.nameEl with
    | some n => n.href.getD ""
    | none => ""
  let url := if url0 ≠ "" then urljoin BASE_URL url0 else ""
  let priceTxt := row.priceText.getD ""
  let price := pyFloat priceTxt
  let short_description := row.descText.getD ""
  let img0 := match row.imgSrc with
    | some (some s) => s
    | _ => ""
  let image := if img0 ≠ "" then urljoin BASE_URL img0 else ""
  ⟨name, url, price, short_description, image⟩

/-- `parse_products_from_page` (`scrape.py` lines 65-98). -/
def parse_products_from_page (page : ProductsPage) : List Product :=
  page.rows.map parseProductRow

/-- `find_total_pages_products` (`scrape.py` lines 101-115): `None` when
the paging-meta node is absent or the regex does not match.  (The
source's `try/except` around `int(m.group(1))` is dead code: the capture
is a digit run and Python ints do not overflow.) -/
def find_total_pages_products (page : ProductsPage) : Option Nat :=
  match page.pagingMeta with
  | none => none
  | some text => searchInPages text.toList

/-- The start URL list of `scrape_products_html` (lines 125-133). -/
def start_urls (perCategory : Bool) : List String :=
  if perCategory then
    [BASE_URL ++ "/products",
     BASE_URL ++ "/products?category=apparel",
     BASE_URL ++ "/products?category=consumables",
     BASE_URL ++ "/products?category=household"]
  else [BASE_URL ++ "/products"]

/-- The page-N URL built at lines 146-147:
`f"\x7bstart\x7d\x7bjoiner\x7dpage=\x7bpage\x7d"` with `joiner`
chosen by whether `start` already has a query string. -/
def pageUrl (start : String) (page : Nat) : String :=
  start ++ (if start.toList.contains '?' then "&" else "?") ++ "page=" ++ toString page

/-- A products HTTP error: `requests.raise_for_status` on a 4xx/5xx
response inside `get_html`. -/
inductive ProdErr where
  | http (status : Nat) (url : String)
deriving DecidableEq, Repr

/-- The dedup/append body of the item loop (lines 153-158), acting on
the state `(seen_urls, products)`.  Python's `if it["url"]` is the
nonempty-string truthiness test. -/
def prodDedupStep (st : List String × List Product) (it : Product) :
    List String × List Product :=
  if it.url ≠ "" ∧ it.url ∈ st.1 then st
  else if it.url ≠ "" then (it.url :: st.1, st.2 ++ [it])
  else (st.1, st.2 ++ [it])

/-- The pages-2..N loop of `scrape_products_html` for one start URL:
fetches each page URL in order, aborts on a 4xx/5xx status, otherwise
folds the page's items into the `(seen, products)` state.  Returns the
request log alongside the outcome. -/
def scrapeProductsPages (site : String → Nat × ProductsPage) (start : String) :
    List Nat → List String × List Product →
    List String × Except ProdErr (List String × List Product)
  | [], st => ([], .ok st)
  | p :: rest, st =>
    let u := pageUrl start p
    let fetched := site u
    if 400 ≤ fetched.1 then ([u], .error (.http fetched.1 u))
    else
      let st1 := (parse_products_from_page fetched.2).foldl prodDedupStep st
      let next := scrapeProductsPages site start rest st1
      (u :: next.1, next.2)

/-- One iteration of the start-URL loop (lines 137-158): fetch page 1,
discover the total page count (`or 1`), process page 1's already-fetched
document, then pages `2..total`. -/
def scrapeProductsStart (site : String → Nat × ProductsPage) (start : String)
    (st : List String × List Product) :
    List String × Except ProdErr (List String × List Product) :=
  let fetched := site start
  if 400 ≤ fetched.1 then ([start], .error (.http fetched.1 start))
  else
    let total := pyOrOne (find_total_pages_products fetched.2)
    let st1 := (parse_products_from_page fetched.2).foldl prodDedupStep st
    let next := scrapeProductsPages site start (List.range' 2 (total - 1)) st1
    (start :: next.1, next.2)

/-- The start-URL loop, threading the one shared `(seen, products)`
state; an uncaught `HTTPError` aborts the whole crawler. -/
def scrapeProductsGo (site : String → Nat × ProductsPage) :
    List String → List String × List Product →
    List String × Except ProdErr (List Product)
  | [], st => ([], .ok st.2)
  | s :: rest, st =>
    let this := scrapeProductsStart site s st
    match this.2 with
    | .error e => (this.1, .error e)
    | .ok st1 =>
      let next := scrapeProductsGo site rest st1
      (this.1 ++ next.1, next.2)

/-- `scrape_products_html` (lines 118-160), with HTTP traffic given by
the pure oracle `site : url -> (status, document)`.  Returns the list of
requested URLs in order and either the product list or the HTTP error
raised. -/
def scrape_products_html (site : String → Nat × ProductsPage) (perCategory : Bool) :
    List String × Except ProdErr (List Product) :=
  scrapeProductsGo site (start_urls perCategory) ([], [])

/-! ## Reviews (GraphQL cursor pagination)

A GraphQL response is modelled at the level `scrape_reviews_graphql`
reads the decoded JSON.  `Option` models an absent key; for the nested
`edges`, `pageInfo`, `edge` and `node` accesses it also covers an
explicit JSON `null` (the source guards those with `or` defaults).
Scalar node values are abstracted as strings. -/

/-- A review node as read by `node.get(...)`: each field `None` when
absent. -/
structure RNode where
  rid : Option String
  text : Option String
  rating : Option String
  date : Option String
deriving DecidableEq, Repr

/-- An edge object; `node` may be absent or null. -/
structure REdge where
  node : Option RNode
deriving DecidableEq, Repr

/-- The `pageInfo` object; both keys may be absent or null. -/
structure RPageInfo where
  endCursor : Option String
  hasNextPage : Option Bool
deriving DecidableEq, Repr

/-- The `reviews` object: `edges` is a list whose elements may
themselves be null; `edges`/`pageInfo` may be absent or null. -/
structure RReviews where
  edges : Option (List (Option REdge))
  pageInfo : Option RPageInfo
deriving DecidableEq, Repr

/-- The `data` object; `reviews` models an absent key. -/
structure RData where
  reviews : Option RReviews
deriving DecidableEq, Repr

/-- A decoded GraphQL POST response: HTTP status (checked by
`raise_for_status` inside `post_json`), the `errors` array (an absent
key behaves as the empty array in the source's
`"errors" in data and data["errors"]` test), and the `data` object. -/
structure GqlResponse where
  status : Nat
  errors : List String
  data : Option RData
deriving DecidableEq, Repr

/-- The dict appended per edge (lines 214-219). -/
structure ReviewRec where
  rid : Option String
  date : Option String
  rating : Option String
  text : Option String
deriving DecidableEq, Repr

/-- The GraphQL variables of one POST: the payload also carries the
fixed `REVIEWS_QUERY` document, constant across all requests. -/
structure GqlPayload where
  first : Nat
  after : Option String
deriving DecidableEq, Repr

/-- `data.get("data", \x7b\x7d).get("reviews", \x7b\x7d)` (line 208). -/
def reviewsObj (r : GqlResponse) : RReviews :=
  (r.data.getD ⟨none⟩).reviews.getD ⟨none, none⟩

/-- `reviews.get("edges", []) or []` (line 209). -/
def edgesOf (r : GqlResponse) : List (Option REdge) :=
  (reviewsObj r).edges.getD []

/-- `reviews.get("pageInfo", \x7b\x7d) or \x7b\x7d` (line 210). -/
def pageInfoOf (r : GqlResponse) : RPageInfo :=
  (reviewsObj r).pageInfo.getD ⟨none, none⟩

/-- The truthiness test `page_info.get("hasNextPage")` (line 221). -/
def hasNextOf (r : GqlResponse) : Bool :=
  (pageInfoOf r).hasNextPage.getD false

/-- `page_info.get("endCursor")` (line 224). -/
def cursorOf (r : GqlResponse) : Option String :=
  (pageInfoOf r).endCursor

/-- The edge loop body (lines 212-219): `(edge or \x7b\x7d).get("node")
or \x7b\x7d`, then each field via `node.get`. -/
def edgeToRec (e : Option REdge) : ReviewRec :=
  let node := (e.getD ⟨none⟩).node.getD ⟨none, none, none, none⟩
  ⟨node.rid, node.date, node.rating, node.text⟩

/-- A review-crawler failure: an HTTP error from `post_json`, or the
fatal `RuntimeError` raised on a non-empty GraphQL `errors` array
(carrying that payload) — the spec's ProtocolContractError. -/
inductive ReviewsErr where
  | http (status : Nat)
  | gql (payload : List String)
deriving DecidableEq, Repr

/-- The `while True` loop of `scrape_reviews_graphql` (lines 194-226).
`fuel` is the remaining iteration budget of the `pages > max_pages`
circuit breaker (which exits normally, keeping the accumulated output);
`qIdx` indexes the oracle by query count.  Returns the payloads posted,
in order, and either the accumulated records or the exception. -/
def reviewsGo (server : Nat → GqlResponse) (first : Nat) :
    Nat → Nat → Option String →
    List GqlPayload × Except ReviewsErr (List ReviewRec)
  | 0, _, _ => ([], .ok [])
  | fuel + 1, qIdx, after =>
    let resp := server qIdx
    if 400 ≤ resp.status then ([⟨first, after⟩], .error (.http resp.status))
    else if resp.errors = [] then
      let recs := (edgesOf resp).map edgeToRec
      if hasNextOf resp then
        let next := reviewsGo server first fuel (qIdx + 1) (cursorOf resp)
        (⟨first, after⟩ :: next.1, next.2.map (fun rest => recs ++ rest))
      else ([⟨first, after⟩], .ok recs)
    else ([⟨first, after⟩], .error (.gql resp.errors))

/-- `scrape_reviews_graphql` (lines 188-228), with the POST traffic
given by the pure oracle `server : query index -> response`. -/
def scrape_reviews_graphql (server : Nat → GqlResponse) (first maxPages : Nat) :
    List GqlPayload × Except ReviewsErr (List ReviewRec) :=
  reviewsGo server first maxPages 0 none

/-! ## Testimonials (HTMX fragment chaining)

A testimonials page or fragment is modelled as the list of its
`div.testimonial` cards, each at the level the parser queries it. -/

/-- One `div.testimonial` card: the optional `p.text` text, the optional
`span.rating` node with its svg count, the optional `identicon-svg`
`username` attribute, and the optional `hx-get` attribute (present on
the loader card). -/
structure TCard where
  textEl : Option String
  ratingSvgCount : Option Nat
  identUsername : Option String
  hxGet : Option String
deriving DecidableEq, Repr

/-- A testimonials document (full page or fragment). -/
structure TFragment where
  cards : List TCard
deriving DecidableEq, Repr

/-- A testimonial record (lines 262-266); `rating` stays `None` when the
`span.rating` node is absent. -/
structure Testimonial where
  author : String
  text : String
  rating : Option Nat
deriving DecidableEq, Repr

/-- The card loop body of `parse_testimonials_fragment` (lines 244-266);
`len(svgs) if svgs else 0` maps an empty svg list to the explicit 0. -/
def parseTCard (c : TCard) : Testimonial :=
  let text := c.textEl.getD ""
  let rating : Option Nat :=
    match c.ratingSvgCount with
    | none => none
    | some k => some (if k = 0 then 0 else k)
  let author := c.identUsername.getD ""
  ⟨author, text, rating⟩

/-- `soup.select_one("div.testimonial[hx-get]")` (lines 269-273): the
first card carrying an `hx-get` attribute, its value resolved against
the base URL. -/
def nextUrlOf (f : TFragment) : Option String :=
  match f.cards.find? (fun c => c.hxGet.isSome) with
  | some c =>
    match c.hxGet with
    | some u => some (urljoin BASE_URL u)
    | none => none
  | none => none

/-- `parse_testimonials_fragment` (lines 235-275). -/
def parse_testimonials_fragment (f : TFragment) :
    List Testimonial × Option String :=
  (f.cards.map parseTCard, nextUrlOf f)

/-- The header set sent with every fragment request (lines 294-300),
including the site-embedded secret token. -/
def htmx_headers : List (String × String) :=
  [("Referer", BASE_URL ++ "/testimonials"),
   ("Accept", "text/html,*/*;q=0.9"),
   ("HX-Request", "true"),
   ("X-Requested-With", "XMLHttpRequest"),
   ("x-secret-token", "secret123")]

/-- A testimonial-crawler failure: `raise_for_status` on a 4xx/5xx
fragment (or initial-page) response. -/
inductive TestiErr where
  | http (status : Nat) (url : String)
deriving DecidableEq, Repr

/-- The identity key `(author, text, rating)` (line 323). -/
def testiKey (t : Testimonial) : String × String × Option Nat :=
  (t.author, t.text, t.rating)

/-- The dedup loop body (lines 320-327) on the state `(seen, uniq)`. -/
def dedupTStep (st : List (String × String × Option Nat) × List Testimonial)
    (t : Testimonial) : List (String × String × Option Nat) × List Testimonial :=
  if testiKey t ∈ st.1 then st
  else (testiKey t :: st.1, st.2 ++ [t])

/-- The final dedup pass of `scrape_testimonials_htmx`. -/
def dedupT (l : List Testimonial) : List Testimonial :=
  (l.foldl dedupTStep ([], [])).2

/-- The `while next_url` loop (lines 302-317): each fragment GET carries
`htmx_headers`; a 4xx/5xx status raises; `fuel` is the remaining budget
of the `pages > max_pages` breaker (which exits normally).  Returns the
fragment request log (url, headers) and the accumulated records or the
exception. -/
def testiGo (site : String → Nat × TFragment) :
    Nat → Option String →
    List (String × List (String × String)) × Except TestiErr (List Testimonial)
  | _, none => ([], .ok [])
  | 0, some _ => ([], .ok [])
  | fuel + 1, some u =>
    let fetched := site u
    if 400 ≤ fetched.1 then ([(u, htmx_headers)], .error (.http fetched.1 u))
    else
      let parsed := parse_testimonials_fragment fetched.2
      let next := testiGo site fuel parsed.2
      ((u, htmx_headers) :: next.1, next.2.map (fun rest => parsed.1 ++ rest))

/-- `scrape_testimonials_htmx` (lines 278-329), with the GET traffic
given by the pure oracle `site : url -> (status, document)`.  The log
holds the fragment requests only (the initial page GET carries just a
`Referer` header). -/
def scrape_testimonials_htmx (site : String → Nat × TFragment) (maxPages : Nat) :
    List (String × List (String × String)) × Except TestiErr (List Testimonial) :=
  let firstUrl := BASE_URL ++ "/testimonials"
  let fetched := site firstUrl
  if 400 ≤ fetched.1 then ([], .error (.http fetched.1 firstUrl))
  else
    let parsed := parse_testimonials_fragment fetched.2
    let rest := testiGo site maxPages parsed.2
    (rest.1, rest.2.map (fun items => dedupT (parsed.1 ++ items)))

/-! ## The orchestrator `main` (lines 336-379) -/

/-- An uncaught exception aborting `main`: a products `HTTPError`, the
`RuntimeError` that wraps a testimonials `HTTPError` (with the fixed
"Testimonials HTMX scrape failed..." message), or a reviews failure. -/
inductive MainErr where
  | prod (e : ProdErr)
  | testiWrapped (e : TestiErr)
  | reviews (e : ReviewsErr)
deriving DecidableEq, Repr

/-- The observable outcome of one `main` run: which crawlers were
invoked (in order), which output files were written (name, record
count), and the exception that aborted the process, if any. -/
structure MainOut where
  invoked : List String
  files : List (String × Nat)
  exitErr : Option MainErr
deriving DecidableEq, Repr

/-- `main`: products, then testimonials (its `HTTPError` re-raised as a
`RuntimeError`), then reviews, strictly in sequence; each crawler's file
is written right after it succeeds, and the first uncaught exception
aborts the process, leaving later crawlers unrun.  No aggregate summary
is produced beyond the per-file count printed after each success. -/
def mainRun (psite : String → Nat × ProductsPage) (perCategory : Bool)
    (tsite : String → Nat × TFragment) (server : Nat → GqlResponse)
    (reviewsFirst reviewsMaxPages testiMaxPages : Nat) : MainOut :=
  match (scrape_products_html psite perCategory).2 with
  | .error e => ⟨["products"], [], some (.prod e)⟩
  | .ok products =>
    let files1 := [("products.json", products.length)]
    match (scrape_testimonials_htmx tsite testiMaxPages).2 with
    | .error e => ⟨["products", "testimonials"], files1, some (.testiWrapped e)⟩
    | .ok testimonials =>
      let files2 := files1 ++ [("testimonials.json", testimonials.length)]
      match (scrape_reviews_graphql server reviewsFirst reviewsMaxPages).2 with
      | .error e => ⟨["products", "testimonials", "reviews"], files2, some (.reviews e)⟩
      | .ok reviews =>
        ⟨["products", "testimonials", "reviews"],
         files2 ++ [("reviews.json", reviews.length)], none⟩

/-! ## Recursive specification forms and concrete fixtures -/

/-- Recursive form of the dedup loop, generalized over the initial
seen-set. -/
def dedupTRel (seen : List (String × String × Option Nat)) :
    List Testimonial → List Testimonial
  | [] => []
  | t :: rest =>
    if testiKey t ∈ seen then dedupTRel seen rest
    else t :: dedupTRel (testiKey t :: seen) rest

/-- The seen-set after the dedup loop. -/
def seenTAfter (seen : List (String × String × Option Nat)) :
    List Testimonial → List (String × String × Option Nat)
  | [] => seen
  | t :: rest =>
    if testiKey t ∈ seen then seenTAfter seen rest
    else seenTAfter (testiKey t :: seen) rest

/-- A fixture for C7: the initial page hands out one loader card; the
fragment endpoint answers 200 with a document containing no
`div.testimonial` cards at all (the expected structural markers are
missing). -/
def c7site : String → Nat × TFragment := fun u =>
  if u = BASE_URL ++ "/testimonials" then
    (200, ⟨[⟨none, none, none, some "/api/testimonials?page=2"⟩]⟩)
  else (200, ⟨[]⟩)

/-- A response that lets the loop proceed to another query: 2xx status,
no GraphQL errors, truthy `hasNextPage`. -/
def okNext (r : GqlResponse) : Prop :=
  r.status < 400 ∧ r.errors = [] ∧ hasNextOf r = true

/-- The payload sequence of a run of `k + 1` queries starting at query
`qIdx` with cursor `after`: each subsequent `after` is the previous
response's `endCursor`. -/
def afterLog (first : Nat) (server : Nat → GqlResponse) :
    Option String → Nat → Nat → List GqlPayload
  | after, _, 0 => [⟨first, after⟩]
  | after, qIdx, k + 1 =>
    ⟨first, after⟩ :: afterLog first server (cursorOf (server qIdx)) (qIdx + 1) k

/-- The records extracted from responses `qIdx .. qIdx + k`, in server
order. -/
def recsUpTo (server : Nat → GqlResponse) : Nat → Nat → List ReviewRec
  | qIdx, 0 => (edgesOf (server qIdx)).map edgeToRec
  | qIdx, k + 1 => (edgesOf (server qIdx)).map edgeToRec ++ recsUpTo server (qIdx + 1) k

/-- Recursive form of the URL-dedup loop, generalized over the initial
seen-set: a nonempty already-seen URL is dropped, a nonempty fresh URL
is kept and remembered, an empty URL is always kept. -/
def prodDedupRel (seen : List String) : List Product → List Product
  | [] => []
  | it :: rest =>
    if it.url ≠ "" ∧ it.url ∈ seen then prodDedupRel seen rest
    else if it.url ≠ "" then it :: prodDedupRel (it.url :: seen) rest
    else it :: prodDedupRel seen rest

/-- The seen-set after the dedup loop. -/
def prodSeenAfter (seen : List String) : List Product → List String
  | [] => seen
  | it :: rest =>
    if it.url ≠ "" ∧ it.url ∈ seen then prodSeenAfter seen rest
    else if it.url ≠ "" then prodSeenAfter (it.url :: seen) rest
    else prodSeenAfter seen rest

/-- The page count discovered for one start URL. -/
def startTotal (site : String → Nat × ProductsPage) (start : String) : Nat :=
  pyOrOne (find_total_pages_products (site start).2)

/-- The page numbers fetched after page 1 for one start URL. -/
def pagesOf (site : String → Nat × ProductsPage) (start : String) : List Nat :=
  List.range' 2 (startTotal site start - 1)

/-- The URLs requested for one start URL, in order: page 1 is the start
URL itself (fetched once), then `?page=2 .. ?page=total`. -/
def startLog (site : String → Nat × ProductsPage) (start : String) : List String :=
  start :: (pagesOf site start).map (pageUrl start)

/-- The items of one start URL's pages in discovery order. -/
def startStream (site : String → Nat × ProductsPage) (start : String) : List Product :=
  parse_products_from_page (site start).2 ++
    ((pagesOf site start).map
      (fun p => parse_products_from_page (site (pageUrl start p)).2)).flatten

/-- All requested URLs of a crawl, in order. -/
def productsLog (site : String → Nat × ProductsPage) (perCategory : Bool) : List String :=
  ((start_urls perCategory).map (startLog site)).flatten

/-- The full discovery-ordered item stream of a crawl. -/
def productsStream (site : String → Nat × ProductsPage) (perCategory : Bool) : List Product :=
  ((start_urls perCategory).map (startStream site)).flatten

/-- A C1 fixture: two pages on the default listing; page 2 repeats the
URL of page 1's first item (with different field values) and adds an
item with no URL. -/
def c1site : String → Nat × ProductsPage := fun u =>
  (200,
    if u = BASE_URL ++ "/products" then
      ⟨[⟨some ⟨"A", some "/product/1"⟩, none, some "da", none⟩,
        ⟨some ⟨"B", some "/product/2"⟩, none, some "db", none⟩],
        some "page 1 of total 28 results in 2 pages"⟩
    else
      ⟨[⟨some ⟨"A2", some "/product/1"⟩, none, some "da2", none⟩,
        ⟨none, none, none, none⟩],
        some "page 2 of total 28 results in 2 pages"⟩)

/-- A C3 fixture: products succeed (empty listing), the testimonial
fragment endpoint answers 422, and the review server would succeed if
it were ever queried. -/
def c3psite : String → Nat × ProductsPage := fun _ => (200, ⟨[], none⟩)

/-- See `c3psite`. -/
def c3tsite : String → Nat × TFragment := fun u =>
  if u = BASE_URL ++ "/testimonials" then
    (200, ⟨[⟨none, none, none, some "/api/testimonials?page=2"⟩]⟩)
  else (422, ⟨[]⟩)

/-- See `c3psite`. -/
def c3server : Nat → GqlResponse := fun _ => ⟨200, [], none⟩

/-! ## Lemmas: the testimonial dedup pass

`dedupT` is a fold threading `(seen, uniq)`; the recursive form
`dedupTRel` makes induction convenient. -/

lemma foldl_dedupTStep (l : List Testimonial) :
    ∀ seen acc, l.foldl dedupTStep (seen, acc) =
      (seenTAfter seen l, acc ++ dedupTRel seen l) := by
  induction l with
  | nil => intro seen acc; simp [seenTAfter, dedupTRel]
  | cons t rest ih =>
    intro seen acc
    by_cases h : testiKey t ∈ seen
    · simp [dedupTStep, dedupTRel, seenTAfter, h, ih]
    · simp [dedupTStep, dedupTRel, seenTAfter, h, ih]

lemma dedupT_eq_rel (l : List Testimonial) : dedupT l = dedupTRel [] l := by
  simp [dedupT, foldl_dedupTStep]

lemma dedupTRel_key_not_seen (l : List Testimonial) :
    ∀ seen, ∀ t ∈ dedupTRel seen l, testiKey t ∉ seen := by
  induction l with
  | nil => intro seen t ht; simp [dedupTRel] at ht
  | cons x rest ih =>
    intro seen t ht
    by_cases h : testiKey x ∈ seen
    · rw [dedupTRel, if_pos h] at ht
      exact ih seen t ht
    · rw [dedupTRel, if_neg h] at ht
      rcases List.mem_cons.mp ht with rfl | ht
      · exact h
      · intro hmem
        exact ih (testiKey x :: seen) t ht (List.mem_cons_of_mem _ hmem)

lemma dedupTRel_countP_seen (l : List Testimonial) (seen) (k)
    (hk : k ∈ seen) :
    (dedupTRel seen l).countP (fun t => decide (testiKey t = k)) = 0 := by
  rw [List.countP_eq_zero]
  intro t ht
  simp only [decide_eq_true_eq]
  intro h
  exact dedupTRel_key_not_seen l seen t ht (h ▸ hk)

lemma dedupTRel_countP (l : List Testimonial) :
    ∀ seen k, k ∉ seen →
      (dedupTRel seen l).countP (fun t => decide (testiKey t = k)) =
        if l.any (fun t => decide (testiKey t = k)) then 1 else 0 := by
  induction l with
  | nil => intro seen k _; simp [dedupTRel]
  | cons x rest ih =>
    intro seen k hk
    by_cases hx : testiKey x = k
    · have hxs : testiKey x ∉ seen := by rw [hx]; exact hk
      rw [dedupTRel, if_neg hxs, List.countP_cons,
          dedupTRel_countP_seen rest (testiKey x :: seen) k
            (by rw [hx]; exact List.mem_cons_self _ _)]
      simp [hx]
    · by_cases hmem : testiKey x ∈ seen
      · rw [dedupTRel, if_pos hmem, ih seen k hk]
        simp [hx]
      · rw [dedupTRel, if_neg hmem, List.countP_cons]
        have hknot : k ∉ testiKey x :: seen := by
          intro h
          rcases List.mem_cons.mp h with h | h
          · exact hx h.symm
          · exact hk h
        rw [ih (testiKey x :: seen) k hknot]
        simp [hx]

lemma dedupTRel_find? (l : List Testimonial) :
    ∀ seen k, k ∉ seen →
      (dedupTRel seen l).find? (fun t => decide (testiKey t = k)) =
        l.find? (fun t => decide (testiKey t = k)) := by
  induction l with
  | nil => intro seen k _; simp [dedupTRel]
  | cons x rest ih =>
    intro seen k hk
    by_cases hx : testiKey x = k
    · have hxs : testiKey x ∉ seen := by rw [hx]; exact hk
      rw [dedupTRel, if_neg hxs,
          List.find?_cons_of_pos _ (by simp [hx]),
          List.find?_cons_of_pos _ (by simp [hx])]
    · by_cases hmem : testiKey x ∈ seen
      · rw [dedupTRel, if_pos hmem, ih seen k hk,
            List.find?_cons_of_neg _ (by simp [hx])]
      · have hknot : k ∉ testiKey x :: seen := by
          intro h
          rcases List.mem_cons.mp h with h | h
          · exact hx h.symm
          · exact hk h
        rw [dedupTRel, if_neg hmem,
            List.find?_cons_of_neg _ (by simp [hx]),
            List.find?_cons_of_neg _ (by simp [hx]),
            ih (testiKey x :: seen) k hknot]

lemma dedupTRel_sublist (l : List Testimonial) :
    ∀ seen, List.Sublist (dedupTRel seen l) l := by
  induction l with
  | nil => intro seen; simp [dedupTRel]
  | cons x rest ih =>
    intro seen
    by_cases h : testiKey x ∈ seen
    · rw [dedupTRel, if_pos h]
      exact List.Sublist.cons x (ih seen)
    · rw [dedupTRel, if_neg h]
      exact List.Sublist.cons₂ x (ih (testiKey x :: seen))

/-- Claim C6. For every sequence of collected testimonial records, the
final dedup pass of the testimonial crawler keeps exactly one record
per distinct `(author, text, rating)` triple — the first occurrence —
preserves first-seen order (the output is a sublist of the input), and
keeps both of two records that differ only in rating. -/
theorem testimonial_dedup_spec (l : List Testimonial) :
    (∀ k, (dedupT l).countP (fun t => decide (testiKey t = k)) =
        if l.any (fun t => decide (testiKey t = k)) then 1 else 0)
    ∧ (∀ k, (dedupT l).find? (fun t => decide (testiKey t = k)) =
        l.find? (fun t => decide (testiKey t = k)))
    ∧ List.Sublist (dedupT l) l
    ∧ (∀ t1 t2, t1 ∈ l → t2 ∈ l → t1.author = t2.author → t1.text = t2.text →
        t1.rating ≠ t2.rating →
        testiKey t1 ≠ testiKey t2
        ∧ (dedupT l).countP (fun t => decide (testiKey t = testiKey t1)) = 1
        ∧ (dedupT l).countP (fun t => decide (testiKey t = testiKey t2)) = 1) := by
  rw [dedupT_eq_rel]
  refine ⟨fun k => dedupTRel_countP l [] k (by simp),
          fun k => dedupTRel_find? l [] k (by simp),
          dedupTRel_sublist l [],
          fun t1 t2 h1 h2 _ _ hr => ?_⟩
  refine ⟨fun h => hr (congrArg (fun p => p.2.2) h), ?_, ?_⟩
  · rw [dedupTRel_countP l [] (testiKey t1) (by simp)]
    have : l.any (fun t => decide (testiKey t = testiKey t1)) := by
      rw [List.any_eq_true]
      exact ⟨t1, h1, by simp⟩
    simp [this]
  · rw [dedupTRel_countP l [] (testiKey t2) (by simp)]
    have : l.any (fun t => decide (testiKey t = testiKey t2)) := by
      rw [List.any_eq_true]
      exact ⟨t2, h2, by simp⟩
    simp [this]

/-- Witness for C6 at a concrete input: two identical triples collapse,
a triple differing only in rating stays. -/
theorem testimonial_dedup_spec_witness :
    testiKey ⟨"a", "x", some 5⟩ ≠ testiKey ⟨"a", "x", some 4⟩
    ∧ (dedupT [⟨"a", "x", some 5⟩, ⟨"a", "x", some 4⟩, ⟨"a", "x", some 5⟩]).countP
        (fun t => decide (testiKey t = testiKey ⟨"a", "x", some 5⟩)) = 1
    ∧ (dedupT [⟨"a", "x", some 5⟩, ⟨"a", "x", some 4⟩, ⟨"a", "x", some 5⟩]).countP
        (fun t => decide (testiKey t = testiKey ⟨"a", "x", some 4⟩)) = 1 :=
  (testimonial_dedup_spec [⟨"a", "x", some 5⟩, ⟨"a", "x", some 4⟩, ⟨"a", "x", some 5⟩]).2.2.2
    ⟨"a", "x", some 5⟩ ⟨"a", "x", some 4⟩ (by decide) (by decide) rfl rfl (by decide)

/-! ## Lemmas: the testimonial fragment loop -/

lemma testiGo_none (site : String → Nat × TFragment) (fuel : Nat) :
    testiGo site fuel none = ([], .ok []) := by
  cases fuel <;> simp [testiGo]

lemma testiGo_step_err (site : String → Nat × TFragment) (fuel : Nat) (u : String)
    (h : 400 ≤ (site u).1) :
    testiGo site (fuel + 1) (some u) =
      ([(u, htmx_headers)], .error (.http (site u).1 u)) := by
  simp only [testiGo]
  rw [if_pos h]

lemma testiGo_step_ok (site : String → Nat × TFragment) (fuel : Nat) (u : String)
    (h : (site u).1 < 400) :
    testiGo site (fuel + 1) (some u) =
      ((u, htmx_headers) ::
          (testiGo site fuel (parse_testimonials_fragment (site u).2).2).1,
        (testiGo site fuel (parse_testimonials_fragment (site u).2).2).2.map
          (fun rest => (parse_testimonials_fragment (site u).2).1 ++ rest)) := by
  simp only [testiGo]
  rw [if_neg (by omega)]

lemma scrape_testimonials_unfold (site : String → Nat × TFragment) (maxPages : Nat)
    (h : (site (BASE_URL ++ "/testimonials")).1 < 400) :
    scrape_testimonials_htmx site maxPages =
      ((testiGo site maxPages
          (parse_testimonials_fragment (site (BASE_URL ++ "/testimonials")).2).2).1,
        (testiGo site maxPages
          (parse_testimonials_fragment (site (BASE_URL ++ "/testimonials")).2).2).2.map
          (fun items =>
            dedupT ((parse_testimonials_fragment (site (BASE_URL ++ "/testimonials")).2).1
              ++ items))) := by
  simp only [scrape_testimonials_htmx]
  rw [if_neg (by omega)]

/-- Claim C5. For a crawl of an initial page chaining through two
fragments whose last fragment has no load-more link, the crawler issues
exactly the two fragment requests, in order, and each of them carries
the HTMX/XHR partial-content headers together with the secret-token
header. -/
theorem testimonial_fragment_requests
    (site : String → Nat × TFragment) (maxPages : Nat) (u1 u2 : String)
    (h0s : (site (BASE_URL ++ "/testimonials")).1 < 400)
    (h0n : (parse_testimonials_fragment (site (BASE_URL ++ "/testimonials")).2).2 = some u1)
    (h1s : (site u1).1 < 400)
    (h1n : (parse_testimonials_fragment (site u1).2).2 = some u2)
    (h2s : (site u2).1 < 400)
    (h2n : (parse_testimonials_fragment (site u2).2).2 = none)
    (hmp : 2 ≤ maxPages) :
    (scrape_testimonials_htmx site maxPages).1 = [(u1, htmx_headers), (u2, htmx_headers)]
    ∧ ∀ e ∈ (scrape_testimonials_htmx site maxPages).1,
        ("HX-Request", "true") ∈ e.2
        ∧ ("X-Requested-With", "XMLHttpRequest") ∈ e.2
        ∧ ("x-secret-token", "secret123") ∈ e.2 := by
  obtain ⟨m, rfl⟩ : ∃ m, maxPages = m + 2 := ⟨maxPages - 2, by omega⟩
  have hlog : (scrape_testimonials_htmx site (m + 2)).1 =
      [(u1, htmx_headers), (u2, htmx_headers)] := by
    rw [scrape_testimonials_unfold site (m + 2) h0s, h0n]
    rw [show m + 2 = (m + 1) + 1 from rfl, testiGo_step_ok site (m + 1) u1 h1s, h1n]
    rw [testiGo_step_ok site m u2 h2s, h2n]
    rw [testiGo_none]
  refine ⟨hlog, ?_⟩
  intro e he
  rw [hlog] at he
  rcases List.mem_cons.mp he with rfl | he
  · exact ⟨by simp [htmx_headers], by simp [htmx_headers], by simp [htmx_headers]⟩
  · rcases List.mem_cons.mp he with rfl | he
    · exact ⟨by simp [htmx_headers], by simp [htmx_headers], by simp [htmx_headers]⟩
    · simp at he

/-- Witness for C5: a concrete three-document fixture. -/
theorem testimonial_fragment_requests_witness :
    (scrape_testimonials_htmx
        (fun u =>
          if u = BASE_URL ++ "/testimonials" then
            (200, ⟨[⟨some "t0", some 5, some "a0", none⟩,
                    ⟨none, none, none, some "/api/testimonials?page=2"⟩]⟩)
          else if u = "https://web-scraping.dev/api/testimonials?page=2" then
            (200, ⟨[⟨some "t1", some 4, some "a1", none⟩,
                    ⟨none, none, none, some "/api/testimonials?page=3"⟩]⟩)
          else (200, ⟨[⟨some "t2", some 3, some "a2", none⟩]⟩))
        50).1 =
      [("https://web-scraping.dev/api/testimonials?page=2", htmx_headers),
       ("https://web-scraping.dev/api/testimonials?page=3", htmx_headers)] :=
  (testimonial_fragment_requests _ 50
    "https://web-scraping.dev/api/testimonials?page=2"
    "https://web-scraping.dev/api/testimonials?page=3"
    (by decide) (by decide) (by decide) (by decide) (by decide) (by decide)
    (by decide)).1

/-- Claim C7, counterexample. A 2xx fragment response missing the expected
structural markers does not abort the crawl: the crawler treats it as
the end of the chain and returns normally (here with the loader card's
record), issuing no error at all. -/
theorem testimonial_structure_counterexample :
    (scrape_testimonials_htmx c7site 200).2 = .ok [⟨"", "", none⟩]
    ∧ (scrape_testimonials_htmx c7site 200).1 =
        [("https://web-scraping.dev/api/testimonials?page=2", htmx_headers)] :=
  ⟨rfl, rfl⟩

/-- Claim C7, amended. A fragment response with a 4xx/5xx status aborts the
crawl with an `HTTPError` carrying the status and URL, which the
orchestrator wraps into the descriptive "Testimonials HTMX scrape
failed..." `RuntimeError` (distinct from the error constructors of the
other crawlers); but a 2xx fragment response missing the expected
structural markers does not abort — it contributes no records and no
next link, and the crawl terminates normally. -/
theorem testimonial_error_amended :
    (∀ (site : String → Nat × TFragment) (fuel : Nat) (u : String),
        400 ≤ (site u).1 →
        testiGo site (fuel + 1) (some u) =
          ([(u, htmx_headers)], .error (.http (site u).1 u)))
    ∧ (∀ (site : String → Nat × TFragment) (fuel : Nat) (u : String),
        (site u).1 < 400 → (site u).2.cards = [] →
        testiGo site (fuel + 1) (some u) = ([(u, htmx_headers)], .ok []))
    ∧ (∀ (psite : String → Nat × ProductsPage) (perCategory : Bool)
          (tsite : String → Nat × TFragment) (server : Nat → GqlResponse)
          (first mr mt : Nat) (ps : List Product) (e : TestiErr),
        (scrape_products_html psite perCategory).2 = .ok ps →
        (scrape_testimonials_htmx tsite mt).2 = .error e →
        (mainRun psite perCategory tsite server first mr mt).exitErr =
          some (.testiWrapped e)) := by
  refine ⟨fun site fuel u h => testiGo_step_err site fuel u h, ?_, ?_⟩
  · intro site fuel u h hc
    have h2 : parse_testimonials_fragment (site u).2 = ([], none) := by
      simp [parse_testimonials_fragment, nextUrlOf, hc]
    rw [testiGo_step_ok site fuel u h, h2, testiGo_none]
    simp [Except.map]
  · intro psite perCategory tsite server first mr mt ps e hp ht
    simp [mainRun, hp, ht]

/-- Witness for the amended C7 at concrete inputs: a 422 fragment
aborts and is wrapped by the orchestrator; an empty 200 fragment ends
the crawl normally. -/
theorem testimonial_error_amended_witness :
    (testiGo (fun _ => (422, ⟨[]⟩)) 1 (some "https://web-scraping.dev/api/testimonials?page=2") =
        ([("https://web-scraping.dev/api/testimonials?page=2", htmx_headers)],
          .error (.http 422 "https://web-scraping.dev/api/testimonials?page=2")))
    ∧ (testiGo (fun _ => (200, ⟨[]⟩)) 1 (some "https://web-scraping.dev/api/testimonials?page=2") =
        ([("https://web-scraping.dev/api/testimonials?page=2", htmx_headers)], .ok []))
    ∧ (mainRun (fun _ => (200, ⟨[], none⟩)) false
        (fun u =>
          if u = BASE_URL ++ "/testimonials" then
            (200, ⟨[⟨none, none, none, some "/api/testimonials?page=2"⟩]⟩)
          else (422, ⟨[]⟩))
        (fun _ => ⟨200, [], none⟩) 20 200 200).exitErr =
        some (.testiWrapped (.http 422 "https://web-scraping.dev/api/testimonials?page=2")) :=
  ⟨testimonial_error_amended.1 _ 0 _ (by decide),
   testimonial_error_amended.2.1 _ 0 _ (by decide) rfl,
   testimonial_error_amended.2.2 _ false _ _ 20 200 200 [] _ rfl rfl⟩

/-- Claim C8, counterexample. A testimonial card with no rating symbols at
all — the `span.rating` node itself absent — is extracted with
`rating = None`, not the integer 0. -/
theorem extractor_rating_counterexample :
    (parseTCard ⟨some "Great product", none, some "user1", none⟩).rating = none
    ∧ (parseTCard ⟨some "Great product", none, some "user1", none⟩).rating ≠ some 0 :=
  ⟨rfl, by decide⟩

/-- Claim C8, amended. Every record produced by the product and
testimonial extractors has all schema keys present (the extractors are
total, one record per matched node); a missing price node yields
`price = none` rather than an omitted key or an exception; a
testimonial whose `span.rating` node is present gets the integer count
of its rating symbols (0 when there are none), while a testimonial
lacking the rating node entirely gets `rating = none`. -/
theorem extractor_defaults_amended :
    (∀ row : ProductRow, row.priceText = none → (parseProductRow row).price = none)
    ∧ (∀ page : ProductsPage, (parse_products_from_page page).length = page.rows.length)
    ∧ (∀ f : TFragment, (parse_testimonials_fragment f).1.length = f.cards.length)
    ∧ (∀ (c : TCard) (k : Nat), c.ratingSvgCount = some k → (parseTCard c).rating = some k)
    ∧ (∀ c : TCard, c.ratingSvgCount = none → (parseTCard c).rating = none) := by
  refine ⟨?_, ?_, ?_, ?_, ?_⟩
  · intro row h
    simp only [parseProductRow, h, Option.getD_none]
    decide
  · intro page
    simp [parse_products_from_page]
  · intro f
    simp [parse_testimonials_fragment]
  · intro c k h
    simp only [parseTCard, h]
    rcases k with _ | k <;> simp
  · intro c h
    simp [parseTCard, h]

/-- Witness for the amended C8 at concrete inputs. -/
theorem extractor_defaults_amended_witness :
    (parseProductRow ⟨some ⟨"Box", some "/product/1"⟩, none, some "d", none⟩).price = none
    ∧ (parseTCard ⟨some "t", some 0, some "a", none⟩).rating = some 0
    ∧ (parseTCard ⟨some "t", none, some "a", none⟩).rating = none :=
  ⟨extractor_defaults_amended.1 _ rfl,
   extractor_defaults_amended.2.2.2.1 _ 0 rfl,
   extractor_defaults_amended.2.2.2.2 _ rfl⟩

/-! ## Lemmas: the review loop -/

lemma afterLog_length (first : Nat) (server : Nat → GqlResponse) :
    ∀ (k qIdx : Nat) (after : Option String),
      (afterLog first server after qIdx k).length = k + 1 := by
  intro k
  induction k with
  | zero => intro qIdx after; rfl
  | succ k ih =>
    intro qIdx after
    simp [afterLog, ih]

lemma reviewsGo_step_http (server : Nat → GqlResponse) (first fuel qIdx : Nat)
    (after : Option String) (h : 400 ≤ (server qIdx).status) :
    reviewsGo server first (fuel + 1) qIdx after =
      ([⟨first, after⟩], .error (.http (server qIdx).status)) := by
  simp only [reviewsGo]
  rw [if_pos h]

lemma reviewsGo_step_gql (server : Nat → GqlResponse) (first fuel qIdx : Nat)
    (after : Option String) (hs : (server qIdx).status < 400)
    (he : (server qIdx).errors ≠ []) :
    reviewsGo server first (fuel + 1) qIdx after =
      ([⟨first, after⟩], .error (.gql (server qIdx).errors)) := by
  simp only [reviewsGo]
  rw [if_neg (by omega), if_neg he]

lemma reviewsGo_step_last (server : Nat → GqlResponse) (first fuel qIdx : Nat)
    (after : Option String) (hs : (server qIdx).status < 400)
    (he : (server qIdx).errors = []) (hn : hasNextOf (server qIdx) = false) :
    reviewsGo server first (fuel + 1) qIdx after =
      ([⟨first, after⟩], .ok ((edgesOf (server qIdx)).map edgeToRec)) := by
  simp only [reviewsGo]
  rw [if_neg (by omega), if_pos he, if_neg (by simp [hn])]

lemma reviewsGo_step_next (server : Nat → GqlResponse) (first fuel qIdx : Nat)
    (after : Option String) (hs : (server qIdx).status < 400)
    (he : (server qIdx).errors = []) (hn : hasNextOf (server qIdx) = true) :
    reviewsGo server first (fuel + 1) qIdx after =
      (⟨first, after⟩ :: (reviewsGo server first fuel (qIdx + 1) (cursorOf (server qIdx))).1,
        (reviewsGo server first fuel (qIdx + 1) (cursorOf (server qIdx))).2.map
          (fun rest => (edgesOf (server qIdx)).map edgeToRec ++ rest)) := by
  simp only [reviewsGo]
  rw [if_neg (by omega), if_pos he, if_pos hn]

/-- A crawl whose responses `qIdx .. qIdx+k-1` continue and whose `k`-th
response carries a non-empty `errors` array runs exactly `k + 1` queries
and aborts with that payload. -/
lemma reviewsGo_error_run (server : Nat → GqlResponse) (first : Nat) :
    ∀ (k fuel qIdx : Nat) (after : Option String),
      (∀ i, i < k → okNext (server (qIdx + i))) →
      (server (qIdx + k)).status < 400 →
      (server (qIdx + k)).errors ≠ [] →
      k < fuel →
      reviewsGo server first fuel qIdx after =
        (afterLog first server after qIdx k, .error (.gql (server (qIdx + k)).errors)) := by
  intro k
  induction k with
  | zero =>
    intro fuel qIdx after _ hs he hf
    obtain ⟨f, rfl⟩ : ∃ f, fuel = f + 1 := ⟨fuel - 1, by omega⟩
    rw [Nat.add_zero] at hs he
    rw [reviewsGo_step_gql server first f qIdx after hs he]
    rfl
  | succ k ih =>
    intro fuel qIdx after hok hs he hf
    obtain ⟨f, rfl⟩ : ∃ f, fuel = f + 1 := ⟨fuel - 1, by omega⟩
    obtain ⟨h1, h2, h3⟩ := hok 0 (by omega)
    rw [Nat.add_zero] at h1 h2 h3
    have hidx : qIdx + 1 + k = qIdx + (k + 1) := by omega
    have hok1 : ∀ i, i < k → okNext (server (qIdx + 1 + i)) := by
      intro i hi
      have h := hok (i + 1) (by omega)
      rwa [show qIdx + (i + 1) = qIdx + 1 + i by omega] at h
    rw [reviewsGo_step_next server first f qIdx after h1 h2 h3,
        ih f (qIdx + 1) (cursorOf (server qIdx)) hok1
          (by rw [hidx]; exact hs) (by rw [hidx]; exact he) (by omega),
        hidx]
    rfl

/-- A crawl whose responses `qIdx .. qIdx+k-1` continue and whose `k`-th
response is well-formed with falsy `hasNextPage` runs exactly `k + 1`
queries and returns all extracted records in server order. -/
lemma reviewsGo_finish_run (server : Nat → GqlResponse) (first : Nat) :
    ∀ (k fuel qIdx : Nat) (after : Option String),
      (∀ i, i < k → okNext (server (qIdx + i))) →
      (server (qIdx + k)).status < 400 →
      (server (qIdx + k)).errors = [] →
      hasNextOf (server (qIdx + k)) = false →
      k < fuel →
      reviewsGo server first fuel qIdx after =
        (afterLog first server after qIdx k, .ok (recsUpTo server qIdx k)) := by
  intro k
  induction k with
  | zero =>
    intro fuel qIdx after _ hs he hn hf
    obtain ⟨f, rfl⟩ : ∃ f, fuel = f + 1 := ⟨fuel - 1, by omega⟩
    rw [Nat.add_zero] at hs he hn
    rw [reviewsGo_step_last server first f qIdx after hs he hn]
    rfl
  | succ k ih =>
    intro fuel qIdx after hok hs he hn hf
    obtain ⟨f, rfl⟩ : ∃ f, fuel = f + 1 := ⟨fuel - 1, by omega⟩
    obtain ⟨h1, h2, h3⟩ := hok 0 (by omega)
    rw [Nat.add_zero] at h1 h2 h3
    have hidx : qIdx + 1 + k = qIdx + (k + 1) := by omega
    have hok1 : ∀ i, i < k → okNext (server (qIdx + 1 + i)) := by
      intro i hi
      have h := hok (i + 1) (by omega)
      rwa [show qIdx + (i + 1) = qIdx + 1 + i by omega] at h
    rw [reviewsGo_step_next server first f qIdx after h1 h2 h3,
        ih f (qIdx + 1) (cursorOf (server qIdx)) hok1
          (by rw [hidx]; exact hs) (by rw [hidx]; exact he)
          (by rw [hidx]; exact hn) (by omega)]
    rfl

/-- The `max_pages` circuit breaker: a crawl never issues more queries
than its fuel. -/
lemma reviewsGo_log_le (server : Nat → GqlResponse) (first : Nat) :
    ∀ (fuel qIdx : Nat) (after : Option String),
      (reviewsGo server first fuel qIdx after).1.length ≤ fuel := by
  intro fuel
  induction fuel with
  | zero => intro qIdx after; simp [reviewsGo]
  | succ f ih =>
    intro qIdx after
    by_cases h1 : 400 ≤ (server qIdx).status
    · rw [reviewsGo_step_http server first f qIdx after h1]
      simp
    · by_cases h2 : (server qIdx).errors = []
      · by_cases h3 : hasNextOf (server qIdx) = true
        · rw [reviewsGo_step_next server first f qIdx after (by omega) h2 h3]
          simpa using Nat.succ_le_succ (ih (qIdx + 1) (cursorOf (server qIdx)))
        · have h3f : hasNextOf (server qIdx) = false := by
            revert h3; cases hasNextOf (server qIdx) <;> simp
          rw [reviewsGo_step_last server first f qIdx after (by omega) h2 h3f]
          simp
      · rw [reviewsGo_step_gql server first f qIdx after (by omega) h2]
        simp

/-- Claim C2. Whenever the `k`-th GraphQL response (each earlier one
having continued the crawl) carries a non-empty `errors` array, the
review crawler aborts with the fatal GraphQL error carrying that
payload, having issued exactly `k + 1` queries — none after the
erroneous response — and the nodes of the erroneous response are not in
any returned result (the outcome is the error, not a record list). -/
theorem reviews_error_abort (server : Nat → GqlResponse) (first maxPages k : Nat)
    (hok : ∀ i, i < k → okNext (server i))
    (hs : (server k).status < 400)
    (he : (server k).errors ≠ [])
    (hk : k < maxPages) :
    scrape_reviews_graphql server first maxPages =
      (afterLog first server none 0 k, .error (.gql (server k).errors))
    ∧ (afterLog first server none 0 k).length = k + 1 := by
  constructor
  · have h := reviewsGo_error_run server first k maxPages 0 none
      (by intro i hi; rw [Nat.zero_add]; exact hok i hi)
      (by rw [Nat.zero_add]; exact hs) (by rw [Nat.zero_add]; exact he) hk
    rw [Nat.zero_add] at h
    exact h
  · exact afterLog_length first server k 0 none

/-- Witness for C2: a single response with `errors = ["boom"]`. -/
theorem reviews_error_abort_witness :
    scrape_reviews_graphql (fun _ => ⟨200, ["boom"], none⟩) 20 100 =
      ([⟨20, none⟩], .error (.gql ["boom"]))
    ∧ (afterLog 20 (fun _ => ⟨200, ["boom"], none⟩) none 0 0).length = 0 + 1 :=
  reviews_error_abort (fun _ => ⟨200, ["boom"], none⟩) 20 100 0
    (by intro i hi; omega) (by decide) (by decide) (by decide)

/-- Claim C9. For a 3-page fixture (`hasNextPage = true, true, false`) the
review crawler issues exactly 3 queries — the first with `after = none`,
each subsequent one with `after` equal to the previous response's
`endCursor` — and returns all nodes in server order, concatenated
without dedup or re-sorting; and (breaker) no crawl ever issues more
queries than `max_pages`. -/
theorem reviews_pagination_spec (server : Nat → GqlResponse) (first maxPages : Nat)
    (h0 : okNext (server 0)) (h1 : okNext (server 1))
    (hs : (server 2).status < 400) (he : (server 2).errors = [])
    (hn : hasNextOf (server 2) = false) (hk : 2 < maxPages) :
    scrape_reviews_graphql server first maxPages =
      ([⟨first, none⟩, ⟨first, cursorOf (server 0)⟩, ⟨first, cursorOf (server 1)⟩],
        .ok ((edgesOf (server 0)).map edgeToRec ++
          ((edgesOf (server 1)).map edgeToRec ++ (edgesOf (server 2)).map edgeToRec)))
    ∧ (∀ (srv : Nat → GqlResponse) (f mp qi : Nat) (a : Option String),
        (reviewsGo srv f mp qi a).1.length ≤ mp) := by
  constructor
  · have h := reviewsGo_finish_run server first 2 maxPages 0 none
      (by
        intro i hi
        interval_cases i
        · simpa using h0
        · simpa using h1)
      (by rw [Nat.zero_add]; exact hs) (by rw [Nat.zero_add]; exact he)
      (by rw [Nat.zero_add]; exact hn) hk
    exact h
  · intro srv f mp qi a
    exact reviewsGo_log_le srv f mp qi a

/-- Witness for C9: a concrete 3-page fixture with cursors `c0`, `c1`
and one node per page. -/
theorem reviews_pagination_spec_witness :
    scrape_reviews_graphql
        (fun i =>
          if i = 0 then
            ⟨200, [], some ⟨some ⟨some [some ⟨some ⟨some "r0", none, none, none⟩⟩],
              some ⟨some "c0", some true⟩⟩⟩⟩
          else if i = 1 then
            ⟨200, [], some ⟨some ⟨some [some ⟨some ⟨some "r1", none, none, none⟩⟩],
              some ⟨some "c1", some true⟩⟩⟩⟩
          else
            ⟨200, [], some ⟨some ⟨some [some ⟨some ⟨some "r2", none, none, none⟩⟩],
              some ⟨none, some false⟩⟩⟩⟩)
        20 200 =
      ([⟨20, none⟩, ⟨20, some "c0"⟩, ⟨20, some "c1"⟩],
        .ok [⟨some "r0", none, none, none⟩, ⟨some "r1", none, none, none⟩,
             ⟨some "r2", none, none, none⟩]) :=
  (reviews_pagination_spec _ 20 200
    (by refine ⟨by decide, by decide, by decide⟩)
    (by refine ⟨by decide, by decide, by decide⟩)
    (by decide) (by decide) (by decide) (by decide)).1

/-- Claim C10. A 2xx GraphQL response with no `errors` and a malformed
shape raises nothing: an absent `data` or `data.reviews` object yields
no edges and a falsy `hasNextPage`; absent `edges` yields no records;
absent `pageInfo` means the crawl stops; a null edge, a null/absent
`node`, and absent node fields are stored as all-null records; and a
first response whose `hasNextPage` is absent or falsy ends the crawl
normally, returning exactly the records present. -/
theorem reviews_malformed_tolerance :
    (∀ (server : Nat → GqlResponse) (first maxPages : Nat),
        (server 0).status < 400 → (server 0).errors = [] →
        hasNextOf (server 0) = false → 1 ≤ maxPages →
        scrape_reviews_graphql server first maxPages =
          ([⟨first, none⟩], .ok ((edgesOf (server 0)).map edgeToRec)))
    ∧ (∀ r : GqlResponse, r.data = none → edgesOf r = [] ∧ hasNextOf r = false)
    ∧ (∀ (r : GqlResponse) (rd : RData), r.data = some rd → rd.reviews = none →
        edgesOf r = [] ∧ hasNextOf r = false)
    ∧ (∀ r : GqlResponse, (reviewsObj r).edges = none → edgesOf r = [])
    ∧ (∀ r : GqlResponse, (reviewsObj r).pageInfo = none → hasNextOf r = false)
    ∧ edgeToRec none = ⟨none, none, none, none⟩
    ∧ (∀ ed : REdge, ed.node = none → edgeToRec (some ed) = ⟨none, none, none, none⟩)
    ∧ (∀ n : RNode, edgeToRec (some ⟨some n⟩) = ⟨n.rid, n.date, n.rating, n.text⟩) := by
  refine ⟨?_, ?_, ?_, ?_, ?_, rfl, ?_, fun n => rfl⟩
  · intro server first maxPages hs he hn hmp
    obtain ⟨f, rfl⟩ : ∃ f, maxPages = f + 1 := ⟨maxPages - 1, by omega⟩
    exact reviewsGo_step_last server first f 0 none hs he hn
  · intro r h
    simp [edgesOf, hasNextOf, reviewsObj, pageInfoOf, h]
  · intro r rd h h2
    simp [edgesOf, hasNextOf, reviewsObj, pageInfoOf, h, h2]
  · intro r h
    simp [edgesOf, h]
  · intro r h
    simp [hasNextOf, pageInfoOf, h]
  · intro ed h
    simp [edgeToRec, h]

/-- Witness for C10: a 200 response with an entirely missing `data`
object terminates the crawl normally with zero records. -/
theorem reviews_malformed_tolerance_witness :
    scrape_reviews_graphql (fun _ => ⟨200, [], none⟩) 20 200 = ([⟨20, none⟩], .ok [])
    ∧ (edgesOf ⟨200, [], none⟩ = [] ∧ hasNextOf ⟨200, [], none⟩ = false) :=
  ⟨by
    have h := reviews_malformed_tolerance.1 (fun _ => ⟨200, [], none⟩) 20 200
      (by decide) (by decide) (by decide) (by decide)
    simpa using h,
   reviews_malformed_tolerance.2.1 ⟨200, [], none⟩ rfl⟩

/-! ## Lemmas: the product crawler

The nested page/start loops are rephrased as one fold of the dedup step
over the discovery-ordered item stream, and the fold as the recursive
`prodDedupRel`. -/

lemma foldl_prodDedupStep (l : List Product) :
    ∀ seen acc, l.foldl prodDedupStep (seen, acc) =
      (prodSeenAfter seen l, acc ++ prodDedupRel seen l) := by
  induction l with
  | nil => intro seen acc; simp [prodSeenAfter, prodDedupRel]
  | cons it rest ih =>
    intro seen acc
    by_cases hne : it.url = ""
    · simp [prodDedupStep, prodDedupRel, prodSeenAfter, hne, ih]
    · by_cases hmem : it.url ∈ seen
      · simp [prodDedupStep, prodDedupRel, prodSeenAfter, hne, hmem, ih]
      · simp [prodDedupStep, prodDedupRel, prodSeenAfter, hne, hmem, ih]

lemma scrapeProductsPages_ok (site : String → Nat × ProductsPage) (start : String)
    (h : ∀ u, (site u).1 < 400) :
    ∀ (pages : List Nat) (st : List String × List Product),
      scrapeProductsPages site start pages st =
        (pages.map (pageUrl start),
          .ok (((pages.map
            (fun p => parse_products_from_page (site (pageUrl start p)).2)).flatten).foldl
              prodDedupStep st)) := by
  intro pages
  induction pages with
  | nil => intro st; simp [scrapeProductsPages]
  | cons p rest ih =>
    intro st
    simp only [scrapeProductsPages]
    rw [if_neg (by have := h (pageUrl start p); omega), ih]
    simp [List.foldl_append]

lemma scrapeProductsStart_ok (site : String → Nat × ProductsPage) (start : String)
    (h : ∀ u, (site u).1 < 400) (st : List String × List Product) :
    scrapeProductsStart site start st =
      (startLog site start, .ok ((startStream site start).foldl prodDedupStep st)) := by
  simp only [scrapeProductsStart]
  rw [if_neg (by have := h start; omega), scrapeProductsPages_ok site start h]
  simp [startLog, startStream, pagesOf, startTotal, List.foldl_append]

lemma scrapeProductsGo_ok (site : String → Nat × ProductsPage)
    (h : ∀ u, (site u).1 < 400) :
    ∀ (starts : List String) (st : List String × List Product),
      scrapeProductsGo site starts st =
        ((starts.map (startLog site)).flatten,
          .ok ((((starts.map (startStream site)).flatten).foldl prodDedupStep st).2)) := by
  intro starts
  induction starts with
  | nil => intro st; simp [scrapeProductsGo]
  | cons s rest ih =>
    intro st
    simp only [scrapeProductsGo]
    rw [scrapeProductsStart_ok site s h st]
    simp only [ih]
    simp [List.foldl_append]

/-- Under successful transport, the product crawler's request log is the
sequential per-start schedule and its output is the URL-dedup of the
discovery-ordered stream. -/
lemma scrape_products_ok (site : String → Nat × ProductsPage) (perCategory : Bool)
    (h : ∀ u, (site u).1 < 400) :
    scrape_products_html site perCategory =
      (productsLog site perCategory,
        .ok (prodDedupRel [] (productsStream site perCategory))) := by
  show scrapeProductsGo site (start_urls perCategory) ([], []) = _
  rw [scrapeProductsGo_ok site h (start_urls perCategory) ([], []),
      foldl_prodDedupStep]
  simp [productsLog, productsStream]

lemma prodDedupRel_url_not_seen (l : List Product) :
    ∀ seen, ∀ t ∈ prodDedupRel seen l, t.url ≠ "" → t.url ∉ seen := by
  induction l with
  | nil => intro seen t ht; simp [prodDedupRel] at ht
  | cons it rest ih =>
    intro seen t ht
    by_cases hne : it.url = ""
    · rw [prodDedupRel, if_neg (by simp [hne]), if_neg (by simp [hne])] at ht
      rcases List.mem_cons.mp ht with rfl | ht
      · intro h2; exact absurd hne h2
      · exact ih seen t ht
    · by_cases hmem : it.url ∈ seen
      · rw [prodDedupRel, if_pos ⟨hne, hmem⟩] at ht
        exact ih seen t ht
      · rw [prodDedupRel, if_neg (by tauto), if_pos hne] at ht
        rcases List.mem_cons.mp ht with rfl | ht
        · intro _; exact hmem
        · intro h2 hm
          exact ih (it.url :: seen) t ht h2 (List.mem_cons_of_mem _ hm)

lemma prodDedupRel_countP_seen (l : List Product) (seen : List String) (u : String)
    (hu : u ≠ "") (hk : u ∈ seen) :
    (prodDedupRel seen l).countP (fun p => decide (p.url = u)) = 0 := by
  rw [List.countP_eq_zero]
  intro t ht
  simp only [decide_eq_true_eq]
  intro h
  exact prodDedupRel_url_not_seen l seen t ht (h ▸ hu) (h ▸ hk)

lemma prodDedupRel_countP (l : List Product) :
    ∀ (seen : List String) (u : String), u ≠ "" → u ∉ seen →
      (prodDedupRel seen l).countP (fun p => decide (p.url = u)) =
        if l.any (fun p => decide (p.url = u)) then 1 else 0 := by
  induction l with
  | nil => intro seen u _ _; simp [prodDedupRel]
  | cons it rest ih =>
    intro seen u hu hk
    by_cases hit : it.url = u
    · have hne : ¬ it.url = "" := by rw [hit]; exact hu
      have hmem : it.url ∉ seen := by rw [hit]; exact hk
      rw [prodDedupRel, if_neg (by tauto), if_pos hne, List.countP_cons,
          prodDedupRel_countP_seen rest (it.url :: seen) u hu
            (by rw [hit]; exact List.mem_cons_self _ _)]
      simp [hit]
    · by_cases hne : it.url = ""
      · rw [prodDedupRel, if_neg (by simp [hne]), if_neg (by simp [hne]),
            List.countP_cons, ih seen u hu hk]
        simp [hit]
      · by_cases hmem : it.url ∈ seen
        · rw [prodDedupRel, if_pos ⟨hne, hmem⟩, ih seen u hu hk]
          simp [hit]
        · have hknot : u ∉ it.url :: seen := by
            intro h
            rcases List.mem_cons.mp h with h | h
            · exact hit h.symm
            · exact hk h
          rw [prodDedupRel, if_neg (by tauto), if_pos hne, List.countP_cons,
              ih (it.url :: seen) u hu hknot]
          simp [hit]

lemma prodDedupRel_find? (l : List Product) :
    ∀ (seen : List String) (u : String), u ≠ "" → u ∉ seen →
      (prodDedupRel seen l).find? (fun p => decide (p.url = u)) =
        l.find? (fun p => decide (p.url = u)) := by
  induction l with
  | nil => intro seen u _ _; simp [prodDedupRel]
  | cons it rest ih =>
    intro seen u hu hk
    by_cases hit : it.url = u
    · have hne : ¬ it.url = "" := by rw [hit]; exact hu
      have hmem : it.url ∉ seen := by rw [hit]; exact hk
      rw [prodDedupRel, if_neg (by tauto), if_pos hne,
          List.find?_cons_of_pos _ (by simp [hit]),
          List.find?_cons_of_pos _ (by simp [hit])]
    · by_cases hne : it.url = ""
      · rw [prodDedupRel, if_neg (by simp [hne]), if_neg (by simp [hne]),
            List.find?_cons_of_neg _ (by simp [hit]),
            List.find?_cons_of_neg _ (by simp [hit]),
            ih seen u hu hk]
      · by_cases hmem : it.url ∈ seen
        · rw [prodDedupRel, if_pos ⟨hne, hmem⟩, ih seen u hu hk,
              List.find?_cons_of_neg _ (by simp [hit])]
        · have hknot : u ∉ it.url :: seen := by
            intro h
            rcases List.mem_cons.mp h with h | h
            · exact hit h.symm
            · exact hk h
          rw [prodDedupRel, if_neg (by tauto), if_pos hne,
              List.find?_cons_of_neg _ (by simp [hit]),
              List.find?_cons_of_neg _ (by simp [hit]),
              ih (it.url :: seen) u hu hknot]

lemma prodDedupRel_filter_empty (l : List Product) :
    ∀ seen : List String,
      (prodDedupRel seen l).filter (fun p => decide (p.url = "")) =
        l.filter (fun p => decide (p.url = "")) := by
  induction l with
  | nil => intro seen; simp [prodDedupRel]
  | cons it rest ih =>
    intro seen
    by_cases hne : it.url = ""
    · rw [prodDedupRel, if_neg (by simp [hne]), if_neg (by simp [hne])]
      rw [List.filter_cons, List.filter_cons]
      simp only [hne, decide_eq_true_eq]
      rw [ih seen]
    · by_cases hmem : it.url ∈ seen
      · rw [prodDedupRel, if_pos ⟨hne, hmem⟩, ih seen, List.filter_cons]
        simp [hne]
      · rw [prodDedupRel, if_neg (by tauto), if_pos hne]
        rw [List.filter_cons, List.filter_cons]
        simp only [hne, decide_eq_true_eq]
        rw [ih (it.url :: seen)]

/-- A page-N URL strictly extends its start URL, so page 1's URL is
never requested a second time. -/
lemma pageUrl_ne_start (start : String) (p : Nat) : pageUrl start p ≠ start := by
  intro h
  have h2 := congrArg String.length h
  have hj : (if start.toList.contains '?' then "&" else "?").length = 1 := by
    split <;> rfl
  rw [pageUrl, String.length_append, String.length_append, String.length_append, hj] at h2
  have h5 : ("page=").length = 5 := rfl
  rw [h5] at h2
  omega

/-- Claim C1. Under successful transport and over all configured start
URLs (which share one seen-set), the product crawler emits exactly one
record per distinct non-empty item URL present in the discovery-ordered
stream, that record being the stream's first occurrence of the URL, and
keeps every item whose URL is empty (the empty-URL items of the output
are exactly those of the stream, in order). -/
theorem products_dedup_spec (site : String → Nat × ProductsPage) (perCategory : Bool)
    (out : List Product)
    (h : ∀ u, (site u).1 < 400)
    (hout : (scrape_products_html site perCategory).2 = .ok out) :
    (∀ u : String, u ≠ "" →
        out.countP (fun p => decide (p.url = u)) =
          if (productsStream site perCategory).any (fun p => decide (p.url = u))
          then 1 else 0)
    ∧ (∀ u : String, u ≠ "" →
        out.find? (fun p => decide (p.url = u)) =
          (productsStream site perCategory).find? (fun p => decide (p.url = u)))
    ∧ out.filter (fun p => decide (p.url = "")) =
        (productsStream site perCategory).filter (fun p => decide (p.url = "")) := by
  rw [scrape_products_ok site perCategory h] at hout
  obtain rfl : prodDedupRel [] (productsStream site perCategory) = out := by
    simpa using hout
  exact ⟨fun u hu => prodDedupRel_countP _ [] u hu (by simp),
         fun u hu => prodDedupRel_find? _ [] u hu (by simp),
         prodDedupRel_filter_empty _ []⟩

/-- Witness for C1: on the fixture, the overlapping URL appears once,
with the fields of its first occurrence, and the URL-less item is
kept. -/
theorem products_dedup_spec_witness :
    (scrape_products_html c1site false).2 =
      .ok [⟨"A", "https://web-scraping.dev/product/1", none, "da", ""⟩,
           ⟨"B", "https://web-scraping.dev/product/2", none, "db", ""⟩,
           ⟨"", "", none, "", ""⟩]
    ∧ List.countP (fun p => decide (p.url = "https://web-scraping.dev/product/1"))
        [(⟨"A", "https://web-scraping.dev/product/1", none, "da", ""⟩ : Product),
         ⟨"B", "https://web-scraping.dev/product/2", none, "db", ""⟩,
         ⟨"", "", none, "", ""⟩] = 1 := by
  constructor
  · rfl
  · have h := (products_dedup_spec c1site false
      [⟨"A", "https://web-scraping.dev/product/1", none, "da", ""⟩,
       ⟨"B", "https://web-scraping.dev/product/2", none, "db", ""⟩,
       ⟨"", "", none, "", ""⟩]
      (fun u => (by decide : (200:Nat) < 400)) rfl).1 "https://web-scraping.dev/product/1" (by decide)
    rw [if_pos (by decide)] at h
    exact h

/-- Claim C4. The discovered page count is at least 1 in all cases; an
absent paging-meta node (and an unmatched summary text) discovers
nothing, so the count defaults to 1 and a default crawl fetches exactly
the one start URL; under successful transport the request log is
exactly the sequential per-start schedule (start URL, then
`page=2..total`); a page-N URL never equals the start URL, and the
start URL is requested exactly once, so page 1's document is reused
rather than fetched again. -/
theorem products_pagination_spec :
    (∀ o : Option Nat, 1 ≤ pyOrOne o)
    ∧ (∀ page : ProductsPage, page.pagingMeta = none →
        find_total_pages_products page = none)
    ∧ (∀ (site : String → Nat × ProductsPage) (perCategory : Bool),
        (∀ u, (site u).1 < 400) →
        (scrape_products_html site perCategory).1 = productsLog site perCategory)
    ∧ (∀ site : String → Nat × ProductsPage,
        (∀ u, (site u).1 < 400) →
        find_total_pages_products (site (BASE_URL ++ "/products")).2 = none →
        (scrape_products_html site false).1 = [BASE_URL ++ "/products"])
    ∧ (∀ (start : String) (p : Nat), pageUrl start p ≠ start)
    ∧ (∀ site : String → Nat × ProductsPage,
        (∀ u, (site u).1 < 400) →
        (scrape_products_html site false).1.countP
          (fun v => decide (v = BASE_URL ++ "/products")) = 1) := by
  refine ⟨?_, ?_, ?_, ?_, pageUrl_ne_start, ?_⟩
  · intro o
    rcases o with _ | n
    · simp [pyOrOne]
    · simp only [pyOrOne]
      split <;> omega
  · intro page h
    simp [find_total_pages_products, h]
  · intro site perCategory h
    rw [scrape_products_ok site perCategory h]
  · intro site h hmeta
    rw [scrape_products_ok site false h]
    simp [productsLog, start_urls, startLog, pagesOf, startTotal, hmeta, pyOrOne]
  · intro site h
    rw [scrape_products_ok site false h]
    have hlog : productsLog site false =
        (BASE_URL ++ "/products") ::
          (pagesOf site (BASE_URL ++ "/products")).map (pageUrl (BASE_URL ++ "/products")) := by
      simp [productsLog, start_urls, startLog]
    rw [hlog, List.countP_cons]
    have hz : ((pagesOf site (BASE_URL ++ "/products")).map
        (pageUrl (BASE_URL ++ "/products"))).countP
          (fun v => decide (v = BASE_URL ++ "/products")) = 0 := by
      rw [List.countP_eq_zero]
      intro v hv
      obtain ⟨p, _, rfl⟩ := List.mem_map.mp hv
      simpa using pageUrl_ne_start (BASE_URL ++ "/products") p
    rw [hz]
    simp

/-- Witness for C4: a page-1 document with no paging-meta node on a
successful fixture yields a one-request crawl. -/
theorem products_pagination_spec_witness :
    find_total_pages_products ((fun (_ : String) => (200, (⟨[], none⟩ : ProductsPage))) "x").2 = none
    ∧ (scrape_products_html (fun _ => (200, ⟨[], none⟩)) false).1 =
        [BASE_URL ++ "/products"]
    ∧ (scrape_products_html (fun _ => (200, ⟨[], none⟩)) false).1.countP
        (fun v => decide (v = BASE_URL ++ "/products")) = 1 :=
  ⟨rfl,
   products_pagination_spec.2.2.2.1 (fun _ => (200, ⟨[], none⟩))
     (fun u => (by decide : (200:Nat) < 400)) rfl,
   products_pagination_spec.2.2.2.2.2 (fun _ => (200, ⟨[], none⟩))
     (fun u => (by decide : (200:Nat) < 400))⟩

/-! ## C3: fault propagation in the orchestrator -/

/-- Claim C3, counterexample. In a run where exactly one crawler (the
testimonial crawler) raises a fatal error, the orchestrator does not
run the remaining review crawler at all, writes no reviews file, and
produces no aggregate summary — the process aborts with the wrapped
testimonial error, even though the review crawler would have
succeeded. -/
theorem orchestrator_isolation_counterexample :
    (scrape_products_html c3psite false).2 = .ok []
    ∧ (scrape_testimonials_htmx c3tsite 200).2 =
        .error (.http 422 "https://web-scraping.dev/api/testimonials?page=2")
    ∧ (scrape_reviews_graphql c3server 20 200).2 = .ok []
    ∧ mainRun c3psite false c3tsite c3server 20 200 200 =
        ⟨["products", "testimonials"], [("products.json", 0)],
          some (.testiWrapped (.http 422 "https://web-scraping.dev/api/testimonials?page=2"))⟩
    ∧ "reviews" ∉ (mainRun c3psite false c3tsite c3server 20 200 200).invoked
    ∧ (mainRun c3psite false c3tsite c3server 20 200 200).files.map Prod.fst =
        ["products.json"] :=
  ⟨rfl, rfl, rfl, rfl, by decide, rfl⟩

/-- Claim C3, amended. The crawlers run strictly in sequence (products,
testimonials, reviews) and the first fatal error aborts the whole
process: crawlers before the failing one have completed with their
files written and retained, the failing crawler writes no file, later
crawlers are not invoked, and the process exits with that error (a
testimonial HTTP failure is wrapped in the descriptive RuntimeError);
only on full success are all three files written, and there is no
aggregate per-crawler success/failure summary beyond this. -/
theorem orchestrator_abort_amended
    (psite : String → Nat × ProductsPage) (perCategory : Bool)
    (tsite : String → Nat × TFragment) (server : Nat → GqlResponse)
    (first mr mt : Nat) :
    (∀ e, (scrape_products_html psite perCategory).2 = .error e →
        mainRun psite perCategory tsite server first mr mt =
          ⟨["products"], [], some (.prod e)⟩)
    ∧ (∀ ps e, (scrape_products_html psite perCategory).2 = .ok ps →
        (scrape_testimonials_htmx tsite mt).2 = .error e →
        mainRun psite perCategory tsite server first mr mt =
          ⟨["products", "testimonials"], [("products.json", ps.length)],
            some (.testiWrapped e)⟩)
    ∧ (∀ ps ts e, (scrape_products_html psite perCategory).2 = .ok ps →
        (scrape_testimonials_htmx tsite mt).2 = .ok ts →
        (scrape_reviews_graphql server first mr).2 = .error e →
        mainRun psite perCategory tsite server first mr mt =
          ⟨["products", "testimonials", "reviews"],
            [("products.json", ps.length), ("testimonials.json", ts.length)],
            some (.reviews e)⟩)
    ∧ (∀ ps ts rs, (scrape_products_html psite perCategory).2 = .ok ps →
        (scrape_testimonials_htmx tsite mt).2 = .ok ts →
        (scrape_reviews_graphql server first mr).2 = .ok rs →
        mainRun psite perCategory tsite server first mr mt =
          ⟨["products", "testimonials", "reviews"],
            [("products.json", ps.length), ("testimonials.json", ts.length),
             ("reviews.json", rs.length)], none⟩) := by
  refine ⟨?_, ?_, ?_, ?_⟩
  · intro e hp
    simp [mainRun, hp]
  · intro ps e hp ht
    simp [mainRun, hp, ht]
  · intro ps ts e hp ht hr
    simp [mainRun, hp, ht, hr]
  · intro ps ts rs hp ht hr
    simp [mainRun, hp, ht, hr]

/-- Witness for the amended C3 at the concrete fixture. -/
theorem orchestrator_abort_amended_witness :
    mainRun c3psite false c3tsite c3server 20 200 200 =
      ⟨["products", "testimonials"], [("products.json", 0)],
        some (.testiWrapped (.http 422 "https://web-scraping.dev/api/testimonials?page=2"))⟩ :=
  (orchestrator_abort_amended c3psite false c3tsite c3server 20 200 200).2.1
    [] (.http 422 "https://web-scraping.dev/api/testimonials?page=2") rfl rfl

end Scrape
